import Mathlib

set_option maxHeartbeats 1000000

/-!
# Verification of the sampling-loop / tool-execution engine

A shallow embedding, in Lean 4, of the core of `computer_use_api.py`:
the `ToolResult` value type, the `_make_api_tool_result` conversion, the
`CommandTool` shell tool, the `FileTool` editing commands, `ToolCollection`
dispatch, and the `_sampling_loop` state machine.

Conventions of the embedding:
* Python `Optional[str]` fields become `Option String`; Python truthiness of
  such a field (`if result.error:`) becomes `optTruthy`, which is false for
  both `none` and `some ""`, exactly as in Python.
* File contents are `List Char`; `splitNl` is Python's `str.split('\n')`,
  `pyCount` is `str.count`, `pyReplace` is `str.replace`.
* Python exceptions are made explicit: a tool invocation returns a
  `ToolOutcome` which is either a normal `ToolResult` or a raised exception
  carrying its message.
* The model service is abstracted as a script of `ModelEvent`s (one per
  model call: either a parsed content-block list or a transport/service
  error); the side-effecting callbacks of the loop are recorded in the
  returned `LoopResult` (`apiReports` logs each `api_response_callback`
  invocation: `none` for a successful call, `some e` for a failure report).
-/

/-- Python truthiness of an `Optional[str]`: `None` and `""` are falsy. -/
def optTruthy : Option String → Bool
  | none => false
  | some s => s != ""

/-- The `ToolResult` value type (computer_use_api.py, lines 48-71): the outcome of one tool
execution, with optional output text, error text, base64 image and system
note. -/
structure ToolResult where
  output : Option String := none
  error : Option String := none
  base64_image : Option String := none
  system : Option String := none
  deriving DecidableEq

/-- One content block inside a converted tool-result item: a text block or a
base64 image block. -/
inductive TRBlock where
  | text (t : String)
  | image (media_type : String) (data : String)
  deriving DecidableEq

/-- The `content` field of a converted tool-result item: the error branch of
`_make_api_tool_result` stores a bare string, the success branch a list of
blocks. -/
inductive TRContent where
  | str (s : String)
  | blocks (bs : List TRBlock)
  deriving DecidableEq

/-- A `BetaToolResultBlockParam` as built by `_make_api_tool_result`. -/
structure ToolResultBlock where
  type : String
  content : TRContent
  tool_use_id : String
  is_error : Bool
  deriving DecidableEq

/-- The `<system>...</system>\n` prefixing used by `_make_api_tool_result`
when `result.system` is truthy. -/
def prependSystem (system : Option String) (text : String) : String :=
  if optTruthy system then
    "<system>" ++ system.getD "" ++ "</system>\n" ++ text
  else text

/-- Embedding of `ComputerUseAPI._make_api_tool_result` (lines 572-610): convert a
`ToolResult` into an API tool-result block correlated by `tool_use_id`. -/
def makeApiToolResult (result : ToolResult) (tool_use_id : String) : ToolResultBlock :=
  if optTruthy result.error then
    { type := "tool_result",
      content := .str (prependSystem result.system (result.error.getD "")),
      tool_use_id := tool_use_id,
      is_error := true }
  else
    { type := "tool_result",
      content := .blocks
        ((if optTruthy result.output then
            [TRBlock.text (prependSystem result.system (result.output.getD ""))]
          else [])
         ++
         (if optTruthy result.base64_image then
            [TRBlock.image "image/png" (result.base64_image.getD "")]
          else [])),
      tool_use_id := tool_use_id,
      is_error := false }

/-! ## CommandTool -/

/-- Outcome of the spawned subprocess in `CommandTool.__call__`: either it
completed within the timeout (with its exit code and decoded stdout/stderr),
or `asyncio.wait_for` timed out. -/
inductive ExecOutcome where
  | completed (exit_code : Int) (stdout : String) (stderr : String)
  | timedOut
  deriving DecidableEq

/-- Result of `CommandTool.__call__`, together with whether a subprocess was
spawned (`ran`) and whether it was killed on timeout (`killed`). -/
structure CommandRun where
  result : ToolResult
  ran : Bool
  killed : Bool
  deriving DecidableEq

/-- The hard timeout of `CommandTool.__call__` (`timeout=60.0`). -/
def commandTimeoutSeconds : Nat := 60

/-- Embedding of `CommandTool.__call__` (lines 215-242): the restart flag short-circuits
without running anything; a missing command is an error; otherwise the shell
command runs with a 60-second timeout, stdout/stderr are captured separately
with empty streams mapped to `none`, and on timeout the process is killed
and an error returned. -/
def commandToolCall (command : Option String) (restart : Bool)
    (outcome : ExecOutcome) : CommandRun :=
  if restart then
    { result := { system := some "Command tool has been restarted." },
      ran := false, killed := false }
  else
    match command with
    | none =>
      { result := { error := some "No command provided." },
        ran := false, killed := false }
    | some _ =>
      match outcome with
      | .completed _ stdout_str stderr_str =>
        { result :=
            { output := if stdout_str != "" then some stdout_str else none,
              error := if stderr_str != "" then some stderr_str else none },
          ran := true, killed := false }
      | .timedOut =>
        { result := { error := some "Command timed out after 60 seconds" },
          ran := true, killed := true }

/-! ## ToolCollection -/

/-- Abstract tool input: the keyword-argument mapping passed to a tool. -/
abbrev ToolInput := List (String × String)

/-- Result of invoking a Python tool: either a returned `ToolResult` or a
raised exception with its message (`str(e)`). -/
inductive ToolOutcome where
  | ok (r : ToolResult)
  | exn (msg : String)
  deriving DecidableEq

/-- A registered tool, as seen by `ToolCollection.run`: a (possibly raising)
function of its input. -/
abbrev Tool := ToolInput → ToolOutcome

/-- Embedding of `ToolCollection.run` (lines 459-466): look the tool up by name in
`tool_map`; if absent return an availability error; otherwise invoke it,
catching any exception and wrapping it as an execution error.  The result
type `ToolOutcome` makes "never raises" a provable statement: the function
always returns `.ok`. -/
def toolCollectionRun (tool_map : List (String × Tool)) (name : String)
    (tool_input : ToolInput) : ToolOutcome :=
  match tool_map.lookup name with
  | none => .ok { error := some ("Tool " ++ name ++ " is not available") }
  | some tool =>
    match tool tool_input with
    | .ok r => .ok r
    | .exn m =>
      .ok { error := some ("Error executing tool " ++ name ++ ": " ++ m) }

/-! ## The sampling loop -/

/-- A decomposed content block of a model response
(`_response_to_params`): text, or a tool invocation with its correlation
id, tool name and input mapping. -/
inductive ContentBlock where
  | text (s : String)
  | toolUse (id : String) (name : String) (input : ToolInput)
  deriving DecidableEq

/-- The content of one message of the conversation log. -/
inductive MessageContent where
  | textContent (s : String)
  | blocks (bs : List ContentBlock)
  | toolResults (rs : List ToolResultBlock)
  deriving DecidableEq

/-- One message of the conversation log. -/
structure Message where
  role : String
  content : MessageContent
  deriving DecidableEq

/-- One model call as seen by the loop: either a parsed response (its
decomposed content blocks) or a transport/service failure
(`APIStatusError`, `APIResponseValidationError`, `APIError`) with its
message. -/
inductive ModelEvent where
  | success (blocks : List ContentBlock)
  | failure (err : String)
  deriving DecidableEq

/-- What one invocation of `_sampling_loop` produces: the final message
log, the number of model calls answered, and the arguments of the
`api_response_callback` invocations (`none`: successful call reported with
error `None`; `some e`: failure report). -/
structure LoopResult where
  messages : List Message
  modelCalls : Nat
  apiReports : List (Option String)
  deriving DecidableEq

/-- The tool invocations of a decomposed response, in order:
(correlation id, tool name, input). -/
def toolUses : List ContentBlock → List (String × String × ToolInput)
  | [] => []
  | .text _ :: rest => toolUses rest
  | .toolUse id name input :: rest => (id, name, input) :: toolUses rest

/-- The `tool_result_content` list built by the per-block loop of
`_sampling_loop` (lines 538-549): for each tool-use block in order, run the
tool and convert its result, carrying the block's correlation id. -/
def toolResultContent (runTool : String → ToolInput → ToolResult) :
    List ContentBlock → List ToolResultBlock
  | [] => []
  | .text _ :: rest => toolResultContent runTool rest
  | .toolUse id name input :: rest =>
    makeApiToolResult (runTool name input) id :: toolResultContent runTool rest

/-- The assistant-role message appended at line 533. -/
def assistantMessage (bs : List ContentBlock) : Message :=
  ⟨"assistant", .blocks bs⟩

/-- The user-role message of tool results appended at line 554. -/
def toolResultMessage (rs : List ToolResultBlock) : Message :=
  ⟨"user", .toolResults rs⟩

/-- Embedding of `ComputerUseAPI._sampling_loop` (lines 502-558), with the model service
abstracted as a script of events (one per call) and tool dispatch
abstracted as `runTool`.  Each iteration: call the model (consume one
event); on failure report it and return the log so far; on success append
the assistant message, build the ordered tool-result content, return the
log if it is empty, otherwise append it as one user message and iterate.
An empty event script means the service never answers again; the loop is
then cut off with the log it holds. -/
def samplingLoop (runTool : String → ToolInput → ToolResult) :
    List ModelEvent → List Message → LoopResult
  | [], messages => ⟨messages, 0, []⟩
  | .failure e :: _, messages => ⟨messages, 1, [some e]⟩
  | .success blocks :: rest, messages =>
    let messages1 := messages ++ [assistantMessage blocks]
    let trc := toolResultContent runTool blocks
    if trc.isEmpty then ⟨messages1, 1, [none]⟩
    else
      let r := samplingLoop runTool rest (messages1 ++ [toolResultMessage trc])
      ⟨r.messages, r.modelCalls + 1, none :: r.apiReports⟩

/-! ## Python string primitives over `List Char` -/

/-- Python `str.split('\n')`: always at least one part; n newlines give
n+1 parts. -/
def splitNl : List Char → List (List Char)
  | [] => [[]]
  | c :: rest =>
    let r := splitNl rest
    if c = '\n' then [] :: r else (c :: r.headD []) :: r.tail

/-- Python `'\n'.join(...)`. -/
def joinNl : List (List Char) → List Char
  | [] => []
  | [l] => l
  | l :: ls => l ++ '\n' :: joinNl ls

/-- Auxiliary for `pyCount`: non-overlapping left-to-right count of a
non-empty pattern, structurally recursive on a fuel argument so the kernel
can evaluate it.  Each recursive call strictly shrinks the text, so fuel
equal to the text's length (as supplied by `pyCount`) is never
exhausted. -/
def countOccAux (pat : List Char) : Nat → List Char → Nat
  | _, [] => 0
  | 0, _ :: _ => 0
  | fuel + 1, c :: rest =>
    if List.isPrefixOf pat (c :: rest) then
      1 + countOccAux pat fuel (List.drop (pat.length - 1) rest)
    else
      countOccAux pat fuel rest

/-- Python `text.count(pat)`: non-overlapping occurrences; an empty
pattern counts `len(text) + 1`. -/
def pyCount (text pat : List Char) : Nat :=
  match pat with
  | [] => text.length + 1
  | _ :: _ => countOccAux pat text.length text

/-- Auxiliary for `pyReplace`: replace every non-overlapping occurrence of
a non-empty pattern, scanning left to right; fuelled like
`countOccAux`. -/
def replaceAllAux (pat new : List Char) : Nat → List Char → List Char
  | _, [] => []
  | 0, t => t
  | fuel + 1, c :: rest =>
    if List.isPrefixOf pat (c :: rest) then
      new ++ replaceAllAux pat new fuel (List.drop (pat.length - 1) rest)
    else
      c :: replaceAllAux pat new fuel rest

/-- Python `text.replace('', new)`: interleave `new` at every boundary. -/
def replaceEmpty (new : List Char) : List Char → List Char
  | [] => new
  | c :: rest => new ++ c :: replaceEmpty new rest

/-- Python `text.replace(pat, new)`. -/
def pyReplace (text pat new : List Char) : List Char :=
  match pat with
  | [] => replaceEmpty new text
  | _ :: _ => replaceAllAux pat new text.length text

/-- Python `pat in line` (substring containment). -/
def containsSub (pat : List Char) : List Char → Bool
  | [] => pat.isEmpty
  | c :: rest => List.isPrefixOf pat (c :: rest) || containsSub pat rest

/-- Spec-side notion used by claim C6: the pattern occurs in `text`
starting at index `i`. -/
def occursAt (pat text : List Char) (i : Nat) : Prop :=
  List.isPrefixOf pat (List.drop i text) = true

instance (pat text : List Char) (i : Nat) : Decidable (occursAt pat text i) := by
  unfold occursAt
  infer_instance

/-- Spec-side notion used by claim C6: the 1-based line number of character
index `i` of `text` (1 plus the newlines strictly before it). -/
def lineOfIndex (text : List Char) (i : Nat) : Nat :=
  (List.take i text).count '\n' + 1

/-- The indexed scan underlying the line-number list of
`FileTool.str_replace` (line 386): indices (starting at `k`) of the lines
that contain `old` as a substring. -/
def occLinesFrom (old : List Char) : Nat → List (List Char) → List Nat
  | _, [] => []
  | k, l :: ls =>
    (if containsSub old l then [k] else []) ++ occLinesFrom old (k + 1) ls

/-- The line-number list computed by `FileTool.str_replace` (line 386):
1-based indices of the lines that contain `old` as a substring
(`[i+1 for i, line in enumerate(file_content.split('\n')) if old_str in line]`). -/
def occLines (content old : List Char) : List Nat :=
  occLinesFrom old 1 (splitNl content)

/-- Python's `str(list_of_ints)` rendering, e.g. `"[1, 3]"`. -/
def renderNatList (l : List Nat) : String :=
  "[" ++ String.intercalate ", " (l.map toString) ++ "]"

/-- A single-quote character as a string (kept out of string literals). -/
def squote : String := (Char.ofNat 39).toString

/-- Python fixed-width line-number formatting of `FileTool.view`: the
decimal rendering of `n` right-aligned to width 6 with spaces. -/
def pad6 (n : Nat) : String :=
  let s := toString n
  String.mk (List.replicate (6 - s.length) ' ') ++ s

/-! ## FileTool -/

/-- The state of the path a `FileTool` command operates on. -/
inductive PathState where
  | missing
  | dir (entries : List String)
  | file (content : List Char)
  deriving DecidableEq

/-- The per-path state a `FileTool` command sees: the path's contents and
the path's entry in `_file_history` (the undo stack, most recent last). -/
structure FState where
  path : PathState
  history : List (List Char)
  deriving DecidableEq

/-- Result of one `FileTool` command: the updated per-path state, the
returned `ToolResult`, and whether a write to the file was performed. -/
structure OpResult where
  st : FState
  res : ToolResult
  wrote : Bool
  deriving DecidableEq

namespace FileTool

/-- The `numbered_content` rendering of `FileTool.view` (lines 349-351):
each line of the content prefixed by its width-6 1-based index and a tab. -/
def numberedContent (content : List Char) : String :=
  String.join ((splitNl content).enum.map
    fun p => pad6 (p.1 + 1) ++ "\t" ++ String.mk p.2 ++ "\n")

/-- Embedding of `FileTool.view` (lines 310-355): directory listing (no `view_range`
allowed), or file content with line numbers, optionally restricted to a
1-indexed inclusive line range whose end may be `-1` for end-of-file. -/
def view (pathStr : String) (st : PathState)
    (view_range : Option (List Int)) : ToolResult :=
  match st with
  | .dir entries =>
    match view_range with
    | some _ =>
      { error := some "The `view_range` parameter is not allowed when `path` points to a directory." }
    | none =>
      { output := some ("Directory listing of " ++ pathStr ++ ":\n" ++
          String.intercalate "\n" (entries.filter fun s => !s.startsWith ".")) }
  | .missing => { error := some ("The path " ++ pathStr ++ " does not exist.") }
  | .file file_content =>
    match view_range with
    | none =>
      { output := some ("Contents of " ++ pathStr ++ ":\n" ++
          numberedContent file_content) }
    | some vr =>
      if vr.length ≠ 2 then
        { error := some "Invalid `view_range`. It should be a list of two integers." }
      else
        let lines := splitNl file_content
        let start := vr.headD 0
        let endL := (vr.drop 1).headD 0
        if start < 1 ∨ start > (lines.length : Int) then
          { error := some ("Invalid start line " ++ toString start ++
              ", should be between 1 and " ++ toString lines.length) }
        else if endL ≠ -1 ∧ (endL < start ∨ endL > (lines.length : Int)) then
          { error := some ("Invalid end line " ++ toString endL ++
              ", should be between " ++ toString start ++ " and " ++
              toString lines.length ++ " or -1") }
        else
          let selected :=
            if endL = -1 then joinNl (lines.drop (start - 1).toNat)
            else joinNl ((lines.drop (start - 1).toNat).take (endL - start + 1).toNat)
          { output := some ("Contents of " ++ pathStr ++ ":\n" ++
              numberedContent selected) }

/-- Embedding of `FileTool.create` (lines 357-368): refuse to overwrite an existing
path; otherwise write the new file and reset its undo history to the
one-element stack holding the new text. -/
def create (pathStr : String) (st : FState) (file_text : List Char) : OpResult :=
  match st.path with
  | .missing =>
    { st := { path := .file file_text, history := [file_text] },
      res := { output := some ("File created successfully at: " ++ pathStr) },
      wrote := true }
  | _ =>
    { st := st,
      res := { error := some ("File already exists at: " ++ pathStr ++
          ". Cannot overwrite files using command `create`.") },
      wrote := false }

/-- Embedding of `FileTool.str_replace` (lines 370-400): require `old_str` to occur
exactly once; on zero occurrences or more than one, error without writing
(the multiple-occurrence error carries the matching line numbers);
otherwise push the pre-edit content onto the undo stack and write the
replaced content. -/
def str_replace (pathStr : String) (st : FState)
    (old_str new_str : List Char) : OpResult :=
  match st.path with
  | .missing =>
    ⟨st, { error := some ("The path " ++ pathStr ++ " does not exist.") }, false⟩
  | .dir _ =>
    ⟨st, { error := some ("The path " ++ pathStr ++ " is a directory and cannot be edited.") }, false⟩
  | .file file_content =>
    let occurrences := pyCount file_content old_str
    if occurrences = 0 then
      ⟨st, { error := some ("No replacement was performed, old_str `" ++
          String.mk old_str ++ "` did not appear verbatim in " ++ pathStr ++ ".") }, false⟩
    else if occurrences > 1 then
      ⟨st, { error := some ("Multiple occurrences of old_str `" ++
          String.mk old_str ++ "` in lines " ++
          renderNatList (occLines file_content old_str) ++
          ". Please ensure it is unique.") }, false⟩
    else
      ⟨{ path := .file (pyReplace file_content old_str new_str),
         history := st.history ++ [file_content] },
       { output := some ("The file " ++ pathStr ++ " has been edited. Replaced " ++
           squote ++ String.mk old_str ++ squote ++ " with " ++
           squote ++ String.mk new_str ++ squote ++ ".") },
       true⟩

/-- Embedding of `FileTool.insert` (lines 402-431): validate the insertion line is in
`[0, line_count]`, push the pre-edit content onto the undo stack, and
write the file with the lines of `new_str` spliced in. -/
def insert (pathStr : String) (st : FState)
    (insert_line : Int) (new_str : List Char) : OpResult :=
  match st.path with
  | .missing =>
    ⟨st, { error := some ("The path " ++ pathStr ++ " does not exist.") }, false⟩
  | .dir _ =>
    ⟨st, { error := some ("The path " ++ pathStr ++ " is a directory and cannot be edited.") }, false⟩
  | .file file_content =>
    let lines := splitNl file_content
    if insert_line < 0 ∨ insert_line > (lines.length : Int) then
      ⟨st, { error := some ("Invalid insert_line " ++ toString insert_line ++
          ", should be between 0 and " ++ toString lines.length ++ ".") }, false⟩
    else
      ⟨{ path := .file (joinNl (lines.take insert_line.toNat ++ splitNl new_str ++
           lines.drop insert_line.toNat)),
         history := st.history ++ [file_content] },
       { output := some ("The file " ++ pathStr ++ " has been edited. Inserted text at line " ++
           toString insert_line ++ ".") },
       true⟩

/-- Embedding of `FileTool.undo_edit` (lines 433-446): error if the path does not exist
or its undo stack is empty; otherwise pop the most recent saved content
and rewrite it.  Writing to a directory raises inside the `try`; the
OS-level message of that unreachable-in-normal-operation branch is
abstracted. -/
def undo_edit (pathStr : String) (st : FState) : OpResult :=
  match st.path with
  | .missing =>
    ⟨st, { error := some ("The path " ++ pathStr ++ " does not exist.") }, false⟩
  | .dir _ =>
    match st.history.getLast? with
    | none =>
      ⟨st, { error := some ("No edit history found for " ++ pathStr ++ ".") }, false⟩
    | some _ =>
      ⟨st, { error := some ("Error undoing edit in " ++ pathStr ++
          ": cannot write to a directory") }, false⟩
  | .file _ =>
    match st.history.getLast? with
    | none =>
      ⟨st, { error := some ("No edit history found for " ++ pathStr ++ ".") }, false⟩
    | some previous_content =>
      ⟨{ path := .file previous_content, history := st.history.dropLast },
       { output := some ("Last edit to " ++ pathStr ++ " undone successfully.") },
       true⟩

end FileTool

/-! ## Helper lemmas -/

theorem makeApiToolResult_shape (r : ToolResult) (id : String) :
    (makeApiToolResult r id).type = "tool_result"
    ∧ (makeApiToolResult r id).tool_use_id = id := by
  unfold makeApiToolResult
  split <;> simp

theorem toolResultContent_eq_map (rt : String → ToolInput → ToolResult)
    (blocks : List ContentBlock) :
    toolResultContent rt blocks =
      (toolUses blocks).map fun t => makeApiToolResult (rt t.2.1 t.2.2) t.1 := by
  induction blocks with
  | nil => rfl
  | cons b rest ih => cases b <;> simp [toolResultContent, toolUses, ih]

theorem toolResultContent_isEmpty (rt : String → ToolInput → ToolResult)
    (blocks : List ContentBlock) :
    (toolResultContent rt blocks).isEmpty = true ↔ toolUses blocks = [] := by
  rw [toolResultContent_eq_map]
  simp [List.isEmpty_iff]

theorem samplingLoop_success_eq (rt : String → ToolInput → ToolResult)
    (blocks : List ContentBlock) (rest : List ModelEvent) (messages : List Message) :
    samplingLoop rt (.success blocks :: rest) messages =
      if (toolResultContent rt blocks).isEmpty then
        ⟨messages ++ [assistantMessage blocks], 1, [none]⟩
      else
        ⟨(samplingLoop rt rest (messages ++ [assistantMessage blocks,
            toolResultMessage (toolResultContent rt blocks)])).messages,
         (samplingLoop rt rest (messages ++ [assistantMessage blocks,
            toolResultMessage (toolResultContent rt blocks)])).modelCalls + 1,
         none :: (samplingLoop rt rest (messages ++ [assistantMessage blocks,
            toolResultMessage (toolResultContent rt blocks)])).apiReports⟩ := by
  show (let messages1 := messages ++ [assistantMessage blocks]
        let trc := toolResultContent rt blocks
        if trc.isEmpty then (⟨messages1, 1, [none]⟩ : LoopResult)
        else
          let r := samplingLoop rt rest (messages1 ++ [toolResultMessage trc])
          ⟨r.messages, r.modelCalls + 1, none :: r.apiReports⟩) = _
  simp only [List.append_assoc, List.cons_append, List.nil_append]

theorem str_replace_file_eq (pathStr : String) (h : List (List Char))
    (c old new : List Char) :
    FileTool.str_replace pathStr ⟨.file c, h⟩ old new =
      if pyCount c old = 0 then
        ⟨⟨.file c, h⟩,
         { error := some ("No replacement was performed, old_str `" ++
             String.mk old ++ "` did not appear verbatim in " ++ pathStr ++ ".") },
         false⟩
      else if pyCount c old > 1 then
        ⟨⟨.file c, h⟩,
         { error := some ("Multiple occurrences of old_str `" ++ String.mk old ++
             "` in lines " ++ renderNatList (occLines c old) ++
             ". Please ensure it is unique.") },
         false⟩
      else
        ⟨⟨.file (pyReplace c old new), h ++ [c]⟩,
         { output := some ("The file " ++ pathStr ++ " has been edited. Replaced " ++
             squote ++ String.mk old ++ squote ++ " with " ++
             squote ++ String.mk new ++ squote ++ ".") },
         true⟩ := rfl

theorem insert_file_eq (pathStr : String) (h : List (List Char))
    (c ntext : List Char) (ln : Int) :
    FileTool.insert pathStr ⟨.file c, h⟩ ln ntext =
      if ln < 0 ∨ ln > ((splitNl c).length : Int) then
        ⟨⟨.file c, h⟩,
         { error := some ("Invalid insert_line " ++ toString ln ++
             ", should be between 0 and " ++ toString (splitNl c).length ++ ".") },
         false⟩
      else
        ⟨⟨.file (joinNl ((splitNl c).take ln.toNat ++ splitNl ntext ++
             (splitNl c).drop ln.toNat)), h ++ [c]⟩,
         { output := some ("The file " ++ pathStr ++
             " has been edited. Inserted text at line " ++ toString ln ++ ".") },
         true⟩ := rfl

theorem undo_edit_file_eq (pathStr : String) (h : List (List Char)) (c : List Char) :
    FileTool.undo_edit pathStr ⟨.file c, h⟩ =
      match h.getLast? with
      | none =>
        ⟨⟨.file c, h⟩,
         { error := some ("No edit history found for " ++ pathStr ++ ".") }, false⟩
      | some previous_content =>
        ⟨⟨.file previous_content, h.dropLast⟩,
         { output := some ("Last edit to " ++ pathStr ++ " undone successfully.") },
         true⟩ := rfl

/-! ## Line structure of `splitNl` and occurrence lines -/

theorem splitNl_ne_nil (text : List Char) : splitNl text ≠ [] := by
  cases text with
  | nil => simp [splitNl]
  | cons c rest =>
    simp only [splitNl]
    split <;> simp

theorem splitNl_nl_cons (rest : List Char) :
    splitNl ('\n' :: rest) = [] :: splitNl rest := by
  simp [splitNl]

theorem splitNl_char_cons (c : Char) (rest : List Char) (hc : c ≠ '\n') :
    splitNl (c :: rest) = (c :: (splitNl rest).headD []) :: (splitNl rest).tail := by
  simp [splitNl, hc]

theorem splitNl_headD (text : List Char) :
    (splitNl text).headD [] = text.takeWhile (fun c => c != '\n') := by
  induction text with
  | nil => rfl
  | cons c rest ih =>
    by_cases hc : c = '\n'
    · subst hc
      rw [splitNl_nl_cons, List.takeWhile_cons]
      simp
    · rw [splitNl_char_cons c rest hc, List.takeWhile_cons]
      simp only [bne_iff_ne, ne_eq, hc, not_false_eq_true, if_true, List.headD_cons]
      rw [ih]

theorem isPrefixOf_takeWhile (old : List Char) (h2 : '\n' ∉ old) :
    ∀ text : List Char,
      List.isPrefixOf old (text.takeWhile fun c => c != '\n') =
        List.isPrefixOf old text := by
  induction old with
  | nil => intro text; cases text <;> simp [List.isPrefixOf]
  | cons o os ih =>
    have ho : o ≠ '\n' := fun he => h2 (he ▸ List.mem_cons_self o os)
    have hos : '\n' ∉ os := fun hm => h2 (List.mem_cons_of_mem o hm)
    intro text
    cases text with
    | nil => rfl
    | cons t ts =>
      by_cases ht : t = '\n'
      · subst ht
        rw [List.takeWhile_cons]
        simp only [bne_self_eq_false, Bool.false_eq_true, if_false]
        rw [List.isPrefixOf_cons₂]
        simp [ho]
      · rw [List.takeWhile_cons]
        simp only [bne_iff_ne, ne_eq, ht, not_false_eq_true, if_true]
        rw [List.isPrefixOf_cons₂, List.isPrefixOf_cons₂, ih hos ts]

theorem not_isPrefixOf_nl_cons (o : Char) (os rest : List Char)
    (h : '\n' ∉ o :: os) :
    List.isPrefixOf (o :: os) ('\n' :: rest) = false := by
  rw [List.isPrefixOf_cons₂]
  have ho : o ≠ '\n' := fun he => h (he ▸ List.mem_cons_self o os)
  simp [ho]

theorem exists_nat_cases (P : Nat → Prop) :
    (∃ i, P i) ↔ P 0 ∨ ∃ j, P (j + 1) := by
  constructor
  · rintro ⟨i, hi⟩
    cases i with
    | zero => exact Or.inl hi
    | succ j => exact Or.inr ⟨j, hi⟩
  · rintro (h | ⟨j, hj⟩)
    · exact ⟨0, h⟩
    · exact ⟨j + 1, hj⟩

theorem occursAt_succ (pat : List Char) (c : Char) (rest : List Char) (j : Nat) :
    occursAt pat (c :: rest) (j + 1) ↔ occursAt pat rest j := by
  simp [occursAt, List.drop_succ_cons]

theorem lineOfIndex_zero (text : List Char) : lineOfIndex text 0 = 1 := rfl

theorem lineOfIndex_succ (c : Char) (rest : List Char) (j : Nat) :
    lineOfIndex (c :: rest) (j + 1) =
      lineOfIndex rest j + (if c = '\n' then 1 else 0) := by
  simp only [lineOfIndex, List.take_succ_cons, List.count_cons]
  split <;> split <;> simp_all

theorem occLinesFrom_succ (old : List Char) (ls : List (List Char)) :
    ∀ k, occLinesFrom old (k + 1) ls = (occLinesFrom old k ls).map (· + 1) := by
  induction ls with
  | nil => intro k; rfl
  | cons l ls ih =>
    intro k
    simp only [occLinesFrom, List.map_append, ih (k + 1)]
    split <;> simp

theorem containsSub_nil_of_ne (old : List Char) (h1 : old ≠ []) :
    containsSub old [] = false := by
  cases old with
  | nil => exact absurd rfl h1
  | cons o os => rfl

/-- For a non-empty pattern with no newline, the 1-based indices of the
lines that contain it (as computed by `FileTool.str_replace`) are exactly
the 1-based line numbers of the character positions at which it occurs in
the whole content. -/
theorem mem_occLines_iff (old : List Char) (h1 : old ≠ []) (h2 : '\n' ∉ old) :
    ∀ (text : List Char) (n : Nat),
      n ∈ occLines text old ↔
        ∃ i, occursAt old text i ∧ lineOfIndex text i = n := by
  intro text
  induction text with
  | nil =>
    intro n
    obtain ⟨o, os, rfl⟩ : ∃ o os, old = o :: os := by
      cases old with
      | nil => exact absurd rfl h1
      | cons o os => exact ⟨o, os, rfl⟩
    constructor
    · intro hn
      simp [occLines, splitNl, occLinesFrom, containsSub] at hn
    · rintro ⟨i, hocc, _⟩
      unfold occursAt at hocc
      simp at hocc
  | cons c rest ih =>
    intro n
    by_cases hc : c = '\n'
    · subst hc
      obtain ⟨o, os, hold⟩ : ∃ o os, old = o :: os := by
        cases old with
        | nil => exact absurd rfl h1
        | cons o os => exact ⟨o, os, rfl⟩
      have lhs_eq : occLines ('\n' :: rest) old = (occLines rest old).map (· + 1) := by
        unfold occLines
        rw [splitNl_nl_cons]
        show (if containsSub old [] then [1] else []) ++
            occLinesFrom old 2 (splitNl rest) = _
        rw [containsSub_nil_of_ne old h1,
          show (2 : Nat) = 1 + 1 from rfl, occLinesFrom_succ]
        simp
      have rhs_iff : (∃ i, occursAt old ('\n' :: rest) i ∧
          lineOfIndex ('\n' :: rest) i = n) ↔
          ∃ j, occursAt old rest j ∧ lineOfIndex rest j + 1 = n := by
        rw [exists_nat_cases]
        constructor
        · rintro (⟨hocc, _⟩ | ⟨j, hj1, hj2⟩)
          · exfalso
            unfold occursAt at hocc
            rw [List.drop_zero, hold,
              not_isPrefixOf_nl_cons o os rest (hold ▸ h2)] at hocc
            exact Bool.false_ne_true hocc
          · refine ⟨j, (occursAt_succ old '\n' rest j).1 hj1, ?_⟩
            rw [lineOfIndex_succ] at hj2
            simpa using hj2
        · rintro ⟨j, hj1, hj2⟩
          refine Or.inr ⟨j, (occursAt_succ old '\n' rest j).2 hj1, ?_⟩
          rw [lineOfIndex_succ]
          simpa using hj2
      rw [lhs_eq, List.mem_map, rhs_iff]
      constructor
      · rintro ⟨m, hm, hmn⟩
        obtain ⟨j, hj1, hj2⟩ := (ih m).1 hm
        exact ⟨j, hj1, by omega⟩
      · rintro ⟨j, hj1, hj2⟩
        exact ⟨lineOfIndex rest j, (ih _).2 ⟨j, hj1, rfl⟩, hj2⟩
    · rcases hsp : splitNl rest with _ | ⟨hd, tl⟩
      · exact absurd hsp (splitNl_ne_nil rest)
      have hpref : List.isPrefixOf old (c :: hd) = List.isPrefixOf old (c :: rest) := by
        have h3 : c :: hd = (c :: rest).takeWhile (fun x => x != '\n') := by
          rw [List.takeWhile_cons]
          simp only [bne_iff_ne, ne_eq, hc, not_false_eq_true, if_true]
          rw [← splitNl_headD, hsp]
          rfl
        rw [h3, isPrefixOf_takeWhile old h2]
      have lhs_eq : occLines (c :: rest) old =
          (if containsSub old (c :: hd) then [1] else []) ++ occLinesFrom old 2 tl := by
        unfold occLines
        rw [splitNl_char_cons c rest hc, hsp]
        rfl
      have rest_eq : occLines rest old =
          (if containsSub old hd then [1] else []) ++ occLinesFrom old 2 tl := by
        unfold occLines
        rw [hsp]
        rfl
      rw [lhs_eq, exists_nat_cases]
      have mem_first : ∀ b : Bool, ∀ L : List Nat,
          (n ∈ (if b = true then [1] else []) ++ L) ↔ ((b = true ∧ n = 1) ∨ n ∈ L) := by
        intro b L
        cases b <;> simp
      rw [show (if containsSub old (c :: hd) then [1] else []) =
          (if containsSub old (c :: hd) = true then [1] else []) from by simp,
        mem_first]
      have rhs_zero : (occursAt old (c :: rest) 0 ∧ lineOfIndex (c :: rest) 0 = n) ↔
          (List.isPrefixOf old (c :: rest) = true ∧ n = 1) := by
        unfold occursAt
        rw [List.drop_zero, lineOfIndex_zero]
        exact and_congr Iff.rfl eq_comm
      have rhs_succ : (∃ j, occursAt old (c :: rest) (j + 1) ∧
          lineOfIndex (c :: rest) (j + 1) = n) ↔
          (∃ j, occursAt old rest j ∧ lineOfIndex rest j = n) := by
        refine exists_congr fun j => and_congr (occursAt_succ old c rest j) ?_
        rw [lineOfIndex_succ]
        simp [hc]
      rw [rhs_zero, rhs_succ]
      have rest_mem : (n ∈ occLinesFrom old 2 tl ∨ (containsSub old hd = true ∧ n = 1)) ↔
          (∃ j, occursAt old rest j ∧ lineOfIndex rest j = n) := by
        rw [← ih n, rest_eq,
          show (if containsSub old hd then [1] else []) =
            (if containsSub old hd = true then [1] else []) from by simp,
          mem_first]
        tauto
      have hcontains : containsSub old (c :: hd) =
          (List.isPrefixOf old (c :: rest) || containsSub old hd) := by
        rw [containsSub, hpref]
      rw [hcontains]
      rw [← rest_mem]
      simp only [Bool.or_eq_true]
      tauto

/-! ## Claims C1-C5, C7-C9 -/

/-- C1: `ToolCollection.run` never raises — it returns a normal
`ToolResult` for every tool name and input; an unregistered name yields the
availability error, and an exception raised by the looked-up tool is caught
and wrapped as an execution error naming the tool and the message. -/
theorem c1_dispatch_never_raises (tool_map : List (String × Tool))
    (name : String) (tool_input : ToolInput) :
    (∃ r : ToolResult, toolCollectionRun tool_map name tool_input = .ok r)
    ∧ (tool_map.lookup name = none →
        toolCollectionRun tool_map name tool_input =
          .ok { error := some ("Tool " ++ name ++ " is not available") })
    ∧ (∀ (tool : Tool) (m : String), tool_map.lookup name = some tool →
        tool tool_input = .exn m →
        toolCollectionRun tool_map name tool_input =
          .ok { error := some ("Error executing tool " ++ name ++ ": " ++ m) }) := by
  refine ⟨?_, ?_, ?_⟩
  · match hl : tool_map.lookup name with
    | none =>
      exact ⟨{ error := some ("Tool " ++ name ++ " is not available") },
        by simp [toolCollectionRun, hl]⟩
    | some tool =>
      match ho : tool tool_input with
      | .ok r => exact ⟨r, by simp [toolCollectionRun, hl, ho]⟩
      | .exn m =>
        exact ⟨{ error := some ("Error executing tool " ++ name ++ ": " ++ m) },
          by simp [toolCollectionRun, hl, ho]⟩
  · intro h
    simp [toolCollectionRun, h]
  · intro tool m h1 h2
    simp [toolCollectionRun, h1, h2]

/-- A tool that always raises, used to exercise dispatch at a concrete
input. -/
def raisingTool : Tool := fun _ => .exn "boom"

theorem c1_witness :
    ([("command", raisingTool)].lookup "file" = none
      ∧ toolCollectionRun [("command", raisingTool)] "file" [] =
          .ok { error := some "Tool file is not available" })
    ∧ (raisingTool [] = .exn "boom"
      ∧ toolCollectionRun [("command", raisingTool)] "command" [] =
          .ok { error := some "Error executing tool command: boom" }) :=
  ⟨⟨rfl, (c1_dispatch_never_raises [("command", raisingTool)] "file" []).2.1 rfl⟩,
   ⟨rfl, (c1_dispatch_never_raises [("command", raisingTool)] "command" []).2.2
      raisingTool "boom" rfl rfl⟩⟩

/-- C2: an iteration whose decomposed response has zero tool invocations
terminates the loop there, returning the log (with only the assistant
message appended) regardless of what the service would answer next; an
iteration with at least one invocation performs exactly one more model
call than the continuation started after folding the results. -/
theorem c2_loop_termination (rt : String → ToolInput → ToolResult)
    (blocks : List ContentBlock) (rest : List ModelEvent)
    (messages : List Message) :
    (toolUses blocks = [] →
      samplingLoop rt (.success blocks :: rest) messages =
        ⟨messages ++ [assistantMessage blocks], 1, [none]⟩)
    ∧ (toolUses blocks ≠ [] →
      (samplingLoop rt (.success blocks :: rest) messages).modelCalls =
        (samplingLoop rt rest (messages ++ [assistantMessage blocks,
          toolResultMessage (toolResultContent rt blocks)])).modelCalls + 1) := by
  constructor
  · intro h
    rw [samplingLoop_success_eq, if_pos ((toolResultContent_isEmpty rt blocks).2 h)]
  · intro h
    rw [samplingLoop_success_eq, if_neg]
    simp only [ne_eq, toolResultContent_isEmpty rt blocks]
    exact h

theorem c2_witness :
    (toolUses [ContentBlock.text "done"] = []
      ∧ samplingLoop (fun _ _ => { output := some "ok" })
          [.success [ContentBlock.text "done"], .success []] [] =
        ⟨[assistantMessage [ContentBlock.text "done"]], 1, [none]⟩)
    ∧ (toolUses [ContentBlock.toolUse "t1" "command" []] ≠ []
      ∧ (samplingLoop (fun _ _ => { output := some "ok" })
          [.success [ContentBlock.toolUse "t1" "command" []], .success []] []).modelCalls = 2) := by
  constructor
  · refine ⟨rfl, ?_⟩
    have := (c2_loop_termination (fun _ _ => { output := some "ok" })
      [ContentBlock.text "done"] [.success []] []).1 rfl
    simpa using this
  · refine ⟨by decide, ?_⟩
    have := (c2_loop_termination (fun _ _ => { output := some "ok" })
      [ContentBlock.toolUse "t1" "command" []] [.success []] []).2 (by decide)
    rw [this]
    rfl

/-- C3: a model-service failure makes the loop report the error through the
failure callback and return the log accumulated so far at once — the
remaining service script is never consumed (no retry at this layer). -/
theorem c3_transport_failure (rt : String → ToolInput → ToolResult)
    (e : String) (rest : List ModelEvent) (messages : List Message) :
    samplingLoop rt (.failure e :: rest) messages = ⟨messages, 1, [some e]⟩ := rfl

/-- C4: when a response has at least one tool invocation, the loop appends
exactly one user-role message whose content is the converted tool results,
in invocation order, each converted block carrying the correlation id of
its originating invocation. -/
theorem c4_result_fold_order (rt : String → ToolInput → ToolResult)
    (blocks : List ContentBlock) (rest : List ModelEvent)
    (messages : List Message) (h : toolUses blocks ≠ []) :
    samplingLoop rt (.success blocks :: rest) messages =
      ⟨(samplingLoop rt rest (messages ++ [assistantMessage blocks,
          toolResultMessage (toolResultContent rt blocks)])).messages,
       (samplingLoop rt rest (messages ++ [assistantMessage blocks,
          toolResultMessage (toolResultContent rt blocks)])).modelCalls + 1,
       none :: (samplingLoop rt rest (messages ++ [assistantMessage blocks,
          toolResultMessage (toolResultContent rt blocks)])).apiReports⟩
    ∧ toolResultContent rt blocks =
        (toolUses blocks).map (fun t => makeApiToolResult (rt t.2.1 t.2.2) t.1)
    ∧ (toolResultContent rt blocks).map ToolResultBlock.tool_use_id =
        (toolUses blocks).map (fun t => t.1) := by
  refine ⟨?_, toolResultContent_eq_map rt blocks, ?_⟩
  · rw [samplingLoop_success_eq, if_neg]
    simp only [ne_eq, toolResultContent_isEmpty rt blocks]
    exact h
  · rw [toolResultContent_eq_map, List.map_map]
    refine List.map_congr_left fun t _ => ?_
    exact (makeApiToolResult_shape (rt t.2.1 t.2.2) t.1).2

theorem c4_witness :
    toolUses [ContentBlock.toolUse "tA" "command" [],
        ContentBlock.text "mid", ContentBlock.toolUse "tB" "str_replace_editor" []] ≠ []
    ∧ (toolResultContent (fun _ _ => { output := some "ok" })
        [ContentBlock.toolUse "tA" "command" [],
         ContentBlock.text "mid",
         ContentBlock.toolUse "tB" "str_replace_editor" []]).map
        ToolResultBlock.tool_use_id = ["tA", "tB"] := by
  refine ⟨by decide, ?_⟩
  have := (c4_result_fold_order (fun _ _ => { output := some "ok" })
    [ContentBlock.toolUse "tA" "command" [], ContentBlock.text "mid",
     ContentBlock.toolUse "tB" "str_replace_editor" []] [] [] (by decide)).2.2
  rw [this]
  rfl

/-- C5: `_make_api_tool_result` produces a structurally valid tool-result
item for every `ToolResult`: a set (truthy) error gives a single error-text
payload with the system note prepended and `is_error = true`; otherwise
`is_error = false` and the content is the text block (output with system
note prepended) when output is present followed by the image block when an
image is present; with none of output, error, image present the content is
the empty block list. -/
theorem c5_tool_result_conversion (r : ToolResult) (id : String) :
    ((makeApiToolResult r id).type = "tool_result"
      ∧ (makeApiToolResult r id).tool_use_id = id)
    ∧ (optTruthy r.error = true →
        makeApiToolResult r id =
          { type := "tool_result",
            content := .str (prependSystem r.system (r.error.getD "")),
            tool_use_id := id, is_error := true })
    ∧ (optTruthy r.error = false →
        (makeApiToolResult r id).is_error = false
        ∧ (makeApiToolResult r id).content = .blocks
            ((if optTruthy r.output then
                [TRBlock.text (prependSystem r.system (r.output.getD ""))]
              else [])
             ++ (if optTruthy r.base64_image then
                [TRBlock.image "image/png" (r.base64_image.getD "")]
              else [])))
    ∧ (optTruthy r.output = false → optTruthy r.error = false →
        optTruthy r.base64_image = false →
        makeApiToolResult r id =
          { type := "tool_result", content := .blocks [],
            tool_use_id := id, is_error := false }) := by
  refine ⟨makeApiToolResult_shape r id, ?_, ?_, ?_⟩
  · intro h
    unfold makeApiToolResult
    rw [if_pos h]
  · intro h
    unfold makeApiToolResult
    rw [if_neg (by simp [h])]
    exact ⟨rfl, rfl⟩
  · intro h1 h2 h3
    unfold makeApiToolResult
    rw [if_neg (by simp [h2]), if_neg (by simp [h1]), if_neg (by simp [h3])]
    rfl

theorem c5_witness :
    (optTruthy (ToolResult.mk none (some "failed") none (some "note")).error = true
      ∧ makeApiToolResult ⟨none, some "failed", none, some "note"⟩ "id1" =
          { type := "tool_result",
            content := .str "<system>note</system>\nfailed",
            tool_use_id := "id1", is_error := true })
    ∧ (optTruthy (ToolResult.mk none none none none).output = false
      ∧ makeApiToolResult ⟨none, none, none, none⟩ "id2" =
          { type := "tool_result", content := .blocks [],
            tool_use_id := "id2", is_error := false }) := by
  constructor
  · refine ⟨rfl, ?_⟩
    have := (c5_tool_result_conversion ⟨none, some "failed", none, some "note"⟩ "id1").2.1 rfl
    simpa [prependSystem, optTruthy] using this
  · exact ⟨rfl, (c5_tool_result_conversion ⟨none, none, none, none⟩ "id2").2.2.2 rfl rfl rfl⟩

/-- C7: `str_replace` and `insert` push the pre-edit file content onto the
undo stack exactly when they write, so `undo_edit` right after such a
write restores the byte-identical pre-operation content and stack; and
`undo_edit` on a path with an empty undo history errors and leaves the
state untouched. -/
theorem c7_undo_stack (pathStr : String) (h : List (List Char))
    (c old new ntext : List Char) (ln : Int) :
    ((FileTool.str_replace pathStr ⟨.file c, h⟩ old new).wrote = true →
      (FileTool.str_replace pathStr ⟨.file c, h⟩ old new).st.history = h ++ [c])
    ∧ ((FileTool.insert pathStr ⟨.file c, h⟩ ln ntext).wrote = true →
      (FileTool.insert pathStr ⟨.file c, h⟩ ln ntext).st.history = h ++ [c])
    ∧ ((FileTool.str_replace pathStr ⟨.file c, h⟩ old new).wrote = true →
      (FileTool.undo_edit pathStr
        (FileTool.str_replace pathStr ⟨.file c, h⟩ old new).st).st = ⟨.file c, h⟩)
    ∧ ((FileTool.insert pathStr ⟨.file c, h⟩ ln ntext).wrote = true →
      (FileTool.undo_edit pathStr
        (FileTool.insert pathStr ⟨.file c, h⟩ ln ntext).st).st = ⟨.file c, h⟩)
    ∧ (∀ st : FState, st.history = [] →
        (FileTool.undo_edit pathStr st).st = st
        ∧ (FileTool.undo_edit pathStr st).res.error.isSome = true
        ∧ (FileTool.undo_edit pathStr st).wrote = false) := by
  refine ⟨?_, ?_, ?_, ?_, ?_⟩
  · rw [str_replace_file_eq]
    split
    · simp
    · split <;> simp
  · rw [insert_file_eq]
    split <;> simp
  · rw [str_replace_file_eq]
    split
    · simp
    · split
      · simp
      · intro _
        rw [undo_edit_file_eq]
        simp [List.getLast?_concat, List.dropLast_concat]
  · rw [insert_file_eq]
    split
    · simp
    · intro _
      rw [undo_edit_file_eq]
      simp [List.getLast?_concat, List.dropLast_concat]
  · intro st hst
    obtain ⟨p, hist⟩ := st
    simp only at hst
    subst hst
    cases p with
    | missing => simp [FileTool.undo_edit]
    | dir entries => simp [FileTool.undo_edit]
    | file fc => rw [undo_edit_file_eq]; simp

theorem c7_witness :
    (FileTool.str_replace "C:/f.txt" ⟨.file "abc".data, []⟩ "b".data "xy".data).wrote = true
    ∧ (FileTool.undo_edit "C:/f.txt"
        (FileTool.str_replace "C:/f.txt" ⟨.file "abc".data, []⟩ "b".data "xy".data).st).st
      = ⟨.file "abc".data, []⟩
    ∧ (FileTool.undo_edit "C:/f.txt" (⟨.file "abc".data, []⟩ : FState)).st
      = ⟨.file "abc".data, []⟩
    ∧ (FileTool.undo_edit "C:/f.txt" (⟨.file "abc".data, []⟩ : FState)).res.error.isSome
      = true := by
  refine ⟨by decide, ?_, ?_, ?_⟩
  · exact (c7_undo_stack "C:/f.txt" [] "abc".data "b".data "xy".data "".data 0).2.2.1
      (by decide)
  · exact ((c7_undo_stack "C:/f.txt" [] "abc".data "b".data "xy".data "".data 0).2.2.2.2
      ⟨.file "abc".data, []⟩ rfl).1
  · exact ((c7_undo_stack "C:/f.txt" [] "abc".data "b".data "xy".data "".data 0).2.2.2.2
      ⟨.file "abc".data, []⟩ rfl).2.1

/-- C8: the restart flag short-circuits without spawning a process; a
timeout kills the process and returns an error with no output; a command
completing in time has stdout and stderr captured separately with each
empty stream mapped to an absent field. -/
theorem c8_command_tool (cmd : Option String) (oc : ExecOutcome)
    (c : String) (ec : Int) (so se : String) :
    ((commandToolCall cmd true oc).ran = false
      ∧ (commandToolCall cmd true oc).result.system =
          some "Command tool has been restarted.")
    ∧ (commandToolCall (some c) false .timedOut =
        ⟨{ error := some "Command timed out after 60 seconds" }, true, true⟩)
    ∧ (commandToolCall (some c) false (.completed ec so se) =
        ⟨{ output := if so != "" then some so else none,
           error := if se != "" then some se else none }, true, false⟩)
    ∧ (so = "" →
        (commandToolCall (some c) false (.completed ec so se)).result.output = none)
    ∧ (se = "" →
        (commandToolCall (some c) false (.completed ec so se)).result.error = none) := by
  refine ⟨?_, rfl, rfl, ?_, ?_⟩
  · unfold commandToolCall
    simp
  · intro hso
    unfold commandToolCall
    simp [hso]
  · intro hse
    unfold commandToolCall
    simp [hse]

theorem c8_witness :
    ("" = "" ∧
      (commandToolCall (some "sleep 120") false (.completed 0 "" "")).result.output = none
      ∧ (commandToolCall (some "sleep 120") false (.completed 0 "" "")).result.error = none)
    ∧ (commandToolCall (some "sleep 120") false .timedOut).result.error =
        some "Command timed out after 60 seconds"
    ∧ (commandToolCall (some "sleep 120") false .timedOut).result.output = none := by
  refine ⟨⟨rfl, ?_, ?_⟩, ?_, ?_⟩
  · exact (c8_command_tool (some "sleep 120") .timedOut "sleep 120" 0 "" "").2.2.2.1 rfl
  · exact (c8_command_tool (some "sleep 120") .timedOut "sleep 120" 0 "" "").2.2.2.2 rfl
  · rw [(c8_command_tool (some "sleep 120") .timedOut "sleep 120" 0 "" "").2.1]
  · rw [(c8_command_tool (some "sleep 120") .timedOut "sleep 120" 0 "" "").2.1]

/-- C9: for a command completing within the timeout the exit status never
influences the result; the error field is set exactly when stderr is
non-empty, so a successful exit with stderr output surfaces as an
`is_error` result while a failing exit with empty stderr surfaces with no
error at all. -/
theorem c9_exit_status_ignored (c : String) (ec1 ec2 : Int) (so se : String) :
    (commandToolCall (some c) false (.completed ec1 so se) =
      commandToolCall (some c) false (.completed ec2 so se))
    ∧ ((commandToolCall (some c) false (.completed ec1 so se)).result.error.isSome
        ↔ se ≠ "")
    ∧ (se ≠ "" →
        (makeApiToolResult
          (commandToolCall (some c) false (.completed ec1 so se)).result "tid").is_error
        = true)
    ∧ (se = "" →
        (commandToolCall (some c) false (.completed ec1 so se)).result.error = none) := by
  refine ⟨rfl, ?_, ?_, ?_⟩
  · unfold commandToolCall
    by_cases hse : se = "" <;> simp [hse]
  · intro hse
    unfold commandToolCall makeApiToolResult
    simp only [bne_iff_ne, ne_eq, hse, not_false_eq_true, if_true]
    rw [if_pos]
    simp [optTruthy, hse]
  · intro hse
    unfold commandToolCall
    simp [hse]

theorem c9_witness :
    ((0 : Int) ≠ 1 ∧
      commandToolCall (some "mycmd") false (.completed 0 "out" "warning") =
        commandToolCall (some "mycmd") false (.completed 1 "out" "warning"))
    ∧ ("warning" ≠ "" ∧
      (makeApiToolResult
        (commandToolCall (some "mycmd") false (.completed 0 "out" "warning")).result
        "tid").is_error = true)
    ∧ ("" = "" ∧
      (commandToolCall (some "mycmd") false (.completed 7 "out" "")).result.error = none) := by
  refine ⟨⟨by decide, c9_exit_status_ignored "mycmd" 0 1 "out" "warning" |>.1⟩,
    ⟨by decide, ?_⟩, ⟨rfl, ?_⟩⟩
  · exact (c9_exit_status_ignored "mycmd" 0 1 "out" "warning").2.2.1 (by decide)
  · exact (c9_exit_status_ignored "mycmd" 7 0 "out" "").2.2.2 rfl

/-! ## Claim C6 -/

/-- C6 counterexample: with the multi-line old substring `"x\ny"` in the
file `"x\ny\nx\ny"` there are two occurrences (starting at character
indices 0 and 4, i.e. at lines 1 and 3), so `str_replace` takes its
multiple-occurrence error branch — but the enumerated line-number list in
the error message is empty, missing every line at which the old substring
occurs. -/
theorem c6_counterexample :
    pyCount "x\ny\nx\ny".data "x\ny".data = 2
    ∧ (FileTool.str_replace "C:/f.txt" ⟨.file "x\ny\nx\ny".data, []⟩
        "x\ny".data "z".data).res.error =
      some "Multiple occurrences of old_str `x\ny` in lines []. Please ensure it is unique."
    ∧ (FileTool.str_replace "C:/f.txt" ⟨.file "x\ny\nx\ny".data, []⟩
        "x\ny".data "z".data).wrote = false
    ∧ occursAt "x\ny".data "x\ny\nx\ny".data 0
    ∧ lineOfIndex "x\ny\nx\ny".data 0 = 1
    ∧ occursAt "x\ny".data "x\ny\nx\ny".data 4
    ∧ lineOfIndex "x\ny\nx\ny".data 4 = 3
    ∧ occLines "x\ny\nx\ny".data "x\ny".data = [] := by
  refine ⟨by decide, ?_, by decide, by decide, by decide, by decide, by decide, by decide⟩
  decide

/-- C6 (amended): `str_replace` writes the file if and only if the old
substring occurs exactly once; with zero or two-or-more occurrences it
performs no write and returns an error; and for a non-empty old substring
containing no newline the line-number list of the multiple-occurrence error
contains exactly the line numbers at which the old substring occurs
(occurrences spanning a newline are not attributed to any line). -/
theorem c6_str_replace_unique (pathStr : String) (h : List (List Char))
    (c old new : List Char) :
    ((FileTool.str_replace pathStr ⟨.file c, h⟩ old new).wrote = true ↔
      pyCount c old = 1)
    ∧ (pyCount c old ≠ 1 →
        (FileTool.str_replace pathStr ⟨.file c, h⟩ old new).st = ⟨.file c, h⟩
        ∧ (FileTool.str_replace pathStr ⟨.file c, h⟩ old new).res.error.isSome = true)
    ∧ (pyCount c old > 1 →
        (FileTool.str_replace pathStr ⟨.file c, h⟩ old new).res.error =
          some ("Multiple occurrences of old_str `" ++ String.mk old ++
            "` in lines " ++ renderNatList (occLines c old) ++
            ". Please ensure it is unique."))
    ∧ (old ≠ [] → '\n' ∉ old →
        ∀ n, n ∈ occLines c old ↔ ∃ i, occursAt old c i ∧ lineOfIndex c i = n) := by
  refine ⟨?_, ?_, ?_, fun h1 h2 n => mem_occLines_iff old h1 h2 c n⟩
  · rw [str_replace_file_eq]
    by_cases h0 : pyCount c old = 0
    · simp [h0]
    · by_cases hm : pyCount c old > 1
      · rw [if_neg h0, if_pos hm]
        simp
        omega
      · rw [if_neg h0, if_neg hm]
        simp
        omega
  · intro hne
    rw [str_replace_file_eq]
    by_cases h0 : pyCount c old = 0
    · simp [h0]
    · rw [if_neg h0, if_pos (by omega)]
      exact ⟨rfl, rfl⟩
  · intro hm
    rw [str_replace_file_eq, if_neg (by omega), if_pos hm]

theorem c6_witness :
    (pyCount "a\nb\na".data "a".data = 2
      ∧ (FileTool.str_replace "C:/f.txt" ⟨.file "a\nb\na".data, []⟩
          "a".data "z".data).res.error =
        some "Multiple occurrences of old_str `a` in lines [1, 3]. Please ensure it is unique.")
    ∧ ("a".data ≠ [] ∧ '\n' ∉ "a".data
      ∧ occLines "a\nb\na".data "a".data = [1, 3]
      ∧ (1 ∈ occLines "a\nb\na".data "a".data ↔
          ∃ i, occursAt "a".data "a\nb\na".data i ∧ lineOfIndex "a\nb\na".data i = 1))
    ∧ (pyCount "abc".data "b".data = 1
      ∧ (FileTool.str_replace "C:/f.txt" ⟨.file "abc".data, []⟩
          "b".data "z".data).wrote = true) := by
  refine ⟨⟨by decide, ?_⟩, ⟨by decide, by decide, by decide, ?_⟩, by decide, ?_⟩
  · have := (c6_str_replace_unique "C:/f.txt" [] "a\nb\na".data "a".data "z".data).2.2.1
      (by decide)
    rw [this]
    rfl
  · exact (c6_str_replace_unique "C:/f.txt" [] "a\nb\na".data "a".data "z".data).2.2.2
      (by decide) (by decide) 1
  · exact ((c6_str_replace_unique "C:/f.txt" [] "abc".data "b".data "z".data).1).2
      (by decide)

/-! ## Claim C10 -/

theorem splitNl_mem_not_nl (text : List Char) : ∀ l ∈ splitNl text, '\n' ∉ l := by
  induction text with
  | nil =>
    intro l hl
    simp only [splitNl, List.mem_singleton] at hl
    subst hl
    simp
  | cons c rest ih =>
    by_cases hc : c = '\n'
    · subst hc
      rw [splitNl_nl_cons]
      intro l hl
      rcases List.mem_cons.1 hl with rfl | hl2
      · simp
      · exact ih l hl2
    · rw [splitNl_char_cons c rest hc]
      rcases hsp : splitNl rest with _ | ⟨hd, tl⟩
      · exact absurd hsp (splitNl_ne_nil rest)
      intro l hl
      rcases List.mem_cons.1 hl with rfl | hl2
      · simp only [List.headD_cons]
        intro hmem
        rcases List.mem_cons.1 hmem with he | hmem2
        · exact hc he.symm
        · exact ih hd (hsp ▸ List.mem_cons_self hd tl) hmem2
      · exact ih l (hsp ▸ List.mem_cons_of_mem hd hl2)

theorem splitNl_single (l : List Char) (h : '\n' ∉ l) : splitNl l = [l] := by
  induction l with
  | nil => rfl
  | cons c rest ih =>
    have hc : c ≠ '\n' := fun he => h (he ▸ List.mem_cons_self c rest)
    have hr : '\n' ∉ rest := fun hm => h (List.mem_cons_of_mem c hm)
    rw [splitNl_char_cons c rest hc, ih hr]
    rfl

theorem splitNl_append_nl (l : List Char) (h : '\n' ∉ l) (t : List Char) :
    splitNl (l ++ '\n' :: t) = l :: splitNl t := by
  induction l with
  | nil => simp [splitNl_nl_cons]
  | cons c rest ih =>
    have hc : c ≠ '\n' := fun he => h (he ▸ List.mem_cons_self c rest)
    have hr : '\n' ∉ rest := fun hm => h (List.mem_cons_of_mem c hm)
    rw [List.cons_append, splitNl_char_cons _ _ hc, ih hr]
    rfl

/-- Joining a non-empty list of newline-free lines and re-splitting gives
back the lines: the join-then-split detour of the range branch of `FileTool.view`
branch is the identity on the selected lines. -/
theorem splitNl_joinNl (ls : List (List Char)) (h1 : ls ≠ [])
    (h2 : ∀ l ∈ ls, '\n' ∉ l) : splitNl (joinNl ls) = ls := by
  induction ls with
  | nil => exact absurd rfl h1
  | cons l ls ih =>
    cases ls with
    | nil => exact splitNl_single l (h2 l (List.mem_singleton_self l))
    | cons l2 ls2 =>
      show splitNl (l ++ '\n' :: joinNl (l2 :: ls2)) = _
      rw [splitNl_append_nl l (h2 l (List.mem_cons_self l _)),
        ih (by simp) (fun x hx => h2 x (List.mem_cons_of_mem l hx))]

theorem enum_labels {α : Type} (l : List α) :
    l.enum.map (fun p => p.1 + 1) = List.range' 1 l.length := by
  have h1 : (fun p : Nat × α => p.1 + 1) = (fun n => n + 1) ∘ Prod.fst := rfl
  rw [h1, ← List.map_map, List.enum_map_fst, List.range'_eq_map_range]
  exact List.map_congr_left fun n _ => Nat.add_comm n 1

theorem range'_one_ne (s k : Nat) (hs : s ≠ 1) (hk : k ≠ 0) :
    List.range' 1 k ≠ List.range' s k := by
  rcases k with _ | m
  · exact absurd rfl hk
  rw [List.range'_succ, List.range'_succ]
  intro he
  exact hs (List.cons_eq_cons.1 he).1.symm

/-- The Python slice `lines[start-1:end]` taken by the range branch of
`FileTool.view`. -/
def selectedLines (content : List Char) (start endL : Int) : List (List Char) :=
  ((splitNl content).drop (start - 1).toNat).take (endL - start + 1).toNat

theorem selectedLines_ne_nil (content : List Char) (start endL : Int)
    (h1 : 1 ≤ start) (h2 : start ≤ ((splitNl content).length : Int))
    (h3 : start ≤ endL) : selectedLines content start endL ≠ [] := by
  apply List.ne_nil_of_length_pos
  rw [selectedLines, List.length_take, List.length_drop]
  have hL : 0 < (splitNl content).length - (start - 1).toNat := by omega
  have hT : 0 < (endL - start + 1).toNat := by omega
  omega

/-- C10: viewing a file with a valid line range `[start, end]` renders the
selected lines numbered from 1, not from `start`: the labels are
`1, 2, ..., k` whatever `start` is, so they agree with the file's true
line numbers `start, ..., end` only when `start = 1`. -/
theorem c10_view_renumbers (pathStr : String) (content : List Char)
    (start endL : Int) (h1 : 1 ≤ start)
    (h2 : start ≤ ((splitNl content).length : Int))
    (h3 : start ≤ endL) (h4 : endL ≤ ((splitNl content).length : Int)) :
    (FileTool.view pathStr (.file content) (some [start, endL]) =
      { output := some ("Contents of " ++ pathStr ++ ":\n" ++
          String.join ((selectedLines content start endL).enum.map
            fun p => pad6 (p.1 + 1) ++ "\t" ++ String.mk p.2 ++ "\n")) })
    ∧ ((selectedLines content start endL).enum.map fun p => p.1 + 1) =
        List.range' 1 (selectedLines content start endL).length
    ∧ (start ≠ 1 →
        ((selectedLines content start endL).enum.map fun p => p.1 + 1) ≠
          List.range' start.toNat (selectedLines content start endL).length) := by
  refine ⟨?_, enum_labels _, ?_⟩
  · simp only [FileTool.view]
    rw [if_neg (by simp),
      show ([start, endL] : List Int).headD 0 = start from rfl,
      show (([start, endL] : List Int).drop 1).headD 0 = endL from rfl]
    rw [if_neg (by omega), if_neg (by omega), if_neg (by omega)]
    unfold FileTool.numberedContent
    rw [splitNl_joinNl
      (List.take (endL - start + 1).toNat (List.drop (start - 1).toNat (splitNl content)))
      (selectedLines_ne_nil content start endL h1 h2 h3)
      (fun l hl => splitNl_mem_not_nl content l
        (List.mem_of_mem_drop (List.mem_of_mem_take hl)))]
    rfl
  · intro hs
    rw [enum_labels]
    exact range'_one_ne start.toNat (selectedLines content start endL).length
      (by omega)
      (by
        have := selectedLines_ne_nil content start endL h1 h2 h3
        exact fun hlen => this (List.length_eq_zero.1 hlen))

theorem c10_witness :
    ((1 : Int) ≤ 5 ∧ (5 : Int) ≤ ((splitNl "l1\nl2\nl3\nl4\nl5\nl6\nl7".data).length : Int)
      ∧ (5 : Int) ≤ 7 ∧ (7 : Int) ≤ ((splitNl "l1\nl2\nl3\nl4\nl5\nl6\nl7".data).length : Int))
    ∧ FileTool.view "C:/f.txt" (.file "l1\nl2\nl3\nl4\nl5\nl6\nl7".data) (some [5, 7]) =
        { output := some "Contents of C:/f.txt:\n     1\tl5\n     2\tl6\n     3\tl7\n" }
    ∧ ((selectedLines "l1\nl2\nl3\nl4\nl5\nl6\nl7".data 5 7).enum.map fun p => p.1 + 1) =
        List.range' 1 (selectedLines "l1\nl2\nl3\nl4\nl5\nl6\nl7".data 5 7).length
    ∧ ((selectedLines "l1\nl2\nl3\nl4\nl5\nl6\nl7".data 5 7).enum.map fun p => p.1 + 1) ≠
        List.range' (5 : Int).toNat (selectedLines "l1\nl2\nl3\nl4\nl5\nl6\nl7".data 5 7).length := by
  refine ⟨⟨by decide, by decide, by decide, by decide⟩, ?_, ?_, ?_⟩
  · rw [(c10_view_renumbers "C:/f.txt" "l1\nl2\nl3\nl4\nl5\nl6\nl7".data 5 7
      (by decide) (by decide) (by decide) (by decide)).1]
    rfl
  · exact (c10_view_renumbers "C:/f.txt" "l1\nl2\nl3\nl4\nl5\nl6\nl7".data 5 7
      (by decide) (by decide) (by decide) (by decide)).2.1
  · exact (c10_view_renumbers "C:/f.txt" "l1\nl2\nl3\nl4\nl5\nl6\nl7".data 5 7
      (by decide) (by decide) (by decide) (by decide)).2.2 (by decide)
